import Mathlib

set_option maxHeartbeats 1600000

/-
Shallow embedding of the Type Graph engine of
packages/quicktype-core/src/Type/TypeGraph.ts (quicktype fork).

Modelling conventions:
* A JS `Map` is an association list in insertion order; `Map.set` updates the
  entry in place when the key exists and appends otherwise.  A JS `Set` is a
  duplicate-free list in insertion order (`jsSet` below).
* Nodes live in an arena (spec section 9 explicitly recommends this): a node is
  addressed by its index into the generation's node array; intra-graph links
  (children, top-level roots) are indices.
* `assert` and `messageError` abort the operation; fallible operations return
  `Except GraphError`.
* Parts of this repository that are outside src (TypeRef.ts, TypeBuilder,
  GraphRewriting.ts, ProvenanceTypeAttributeKind.ts, TypeBuilderUtils.ts,
  TypeGraphUtils.ts) are modelled from the spec; each such definition carries a
  doc comment starting with "Modelled from the spec".
-/

/-- Failure conditions of the engine: `assertionFailed` models a failed
`assert`/`defined` (fatal invariant violation), `attributesNotPropagated`
models `messageError("IRTypeAttributesNotPropagated", ...)` with its payload
of a count and the list of missing provenance markers. -/
inductive GraphError where
  | assertionFailed (msg : String)
  | attributesNotPropagated (count : Nat) (indexes : List Nat)
deriving DecidableEq, Repr

instance {ε α : Type} [DecidableEq ε] [DecidableEq α] : DecidableEq (Except ε α) := fun a b =>
  match a, b with
  | .error e, .error f =>
      if h : e = f then isTrue (by rw [h]) else
        isFalse (fun hc => h (by cases hc; rfl))
  | .error _, .ok _ => isFalse (fun hc => by cases hc)
  | .ok _, .error _ => isFalse (fun hc => by cases hc)
  | .ok a, .ok b =>
      if h : a = b then isTrue (by rw [h]) else
        isFalse (fun hc => h (by cases hc; rfl))

/-- Modelled from the spec (TypeRef.ts is not under src, spec section 3): a
type reference is the pair of the generation serial it belongs to and the
node index in that generation's node array. -/
structure TypeRef where
  graphSerial : Nat
  index : Nat
deriving DecidableEq, Repr

/-- A type node as the engine sees it (the external type model, spec
section 2 item 2): its reference, its child enumeration (arena indices), and
the externally supplied "is named" predicate as a field. -/
structure TypeNode where
  ref : TypeRef
  children : List Nat
  named : Bool
deriving DecidableEq, Repr

/-- An attribute kind: identified by a token (`id`), carrying its own merge
rule `combine` (spec section 9: the merge contract is pluggable per kind;
TypeAttributes.ts is not under src). -/
structure TypeAttributeKind (V : Type) where
  id : Nat
  combine : V → V → V

/-- A node's attribute set: a JS Map from attribute-kind token to value. -/
abbrev TypeAttributes (V : Type) : Type := List (Nat × V)

/-- `emptyTypeAttributes` from TypeAttributes.ts. -/
def emptyTypeAttributes {V : Type} : TypeAttributes V := []

/-- JS `Map.get`. -/
def mapGet {V : Type} (m : TypeAttributes V) (k : Nat) : Option V :=
  (m.find? (fun p => p.1 = k)).map (fun p => p.2)

/-- JS `Map.set`: update the entry in place when the key is present, append
otherwise. -/
def mapSet {V : Type} (m : TypeAttributes V) (k : Nat) (v : V) : TypeAttributes V :=
  if m.any (fun p => p.1 = k) then
    m.map (fun p => if p.1 = k then (k, v) else p)
  else
    m ++ [(k, v)]

/-- JS `new Set(list)`: duplicate-free list keeping first occurrences in
insertion order. -/
def jsSet {α : Type} [DecidableEq α] (l : List α) : List α :=
  l.foldl (fun acc a => if a ∈ acc then acc else acc ++ [a]) []

/-- `TypeAttributeStore` (TypeGraph.ts lines 37-124): per-generation storage.
The store's back reference `_typeGraph` is represented by the generation
serial, which is what `assertTypeRefGraph` checks. -/
structure TypeAttributeStore (V : Type) where
  graphSerial : Nat
  topLevelValues : List (String × TypeAttributes V)
  values : List (Option (TypeAttributes V))
deriving DecidableEq

/-- `getTypeIndex`: `assertTypeRefGraph(t.typeRef, this._typeGraph)` then
`typeRefIndex(tref)`. -/
def TypeAttributeStore.getTypeIndex {V : Type} (s : TypeAttributeStore V) (t : TypeNode) :
    Except GraphError Nat :=
  if t.ref.graphSerial = s.graphSerial then
    .ok t.ref.index
  else
    .error (.assertionFailed "TypeRef is in different graph")

/-- `attributesForType`: the stored set at the node's index, or the empty set
when the slot is absent. -/
def TypeAttributeStore.attributesForType {V : Type} (s : TypeAttributeStore V) (t : TypeNode) :
    Except GraphError (TypeAttributes V) := do
  let index ← s.getTypeIndex t
  pure ((((s.values.get? index)).getD none).getD emptyTypeAttributes)

/-- `attributesForTopLevel`. -/
def TypeAttributeStore.attributesForTopLevel {V : Type} (s : TypeAttributeStore V)
    (name : String) : TypeAttributes V :=
  (((s.topLevelValues.find? (fun p => p.1 = name))).map (fun p => p.2)).getD emptyTypeAttributes

/-- `setInMap`: `new Map(attributes).set(kind, value)` — copy the map and set
the entry for `kind` wholesale. -/
def TypeAttributeStore.setInMap {V : Type} (attributes : TypeAttributes V)
    (kind : TypeAttributeKind V) (value : V) : TypeAttributes V :=
  mapSet attributes kind.id value

/-- `set(kind, t, value)`: grow the value array up to the node's index, then
store `setInMap(attributesForType(t), kind, value)` at that index. -/
def TypeAttributeStore.set {V : Type} (s : TypeAttributeStore V) (kind : TypeAttributeKind V)
    (t : TypeNode) (value : V) : Except GraphError (TypeAttributeStore V) := do
  let index ← s.getTypeIndex t
  let grown : TypeAttributeStore V :=
    { s with values := s.values ++ List.replicate (index + 1 - s.values.length) none }
  let attrs ← grown.attributesForType t
  pure { grown with
          values := grown.values.set index (some (TypeAttributeStore.setInMap attrs kind value)) }

/-- `setForTopLevel`. -/
def TypeAttributeStore.setForTopLevel {V : Type} (s : TypeAttributeStore V)
    (kind : TypeAttributeKind V) (topLevelName : String) (value : V) : TypeAttributeStore V :=
  { s with
    topLevelValues :=
      mapSetString s.topLevelValues topLevelName
        (TypeAttributeStore.setInMap (s.attributesForTopLevel topLevelName) kind value) }
where
  mapSetString (m : List (String × TypeAttributes V)) (k : String) (v : TypeAttributes V) :
      List (String × TypeAttributes V) :=
    if m.any (fun p => p.1 = k) then
      m.map (fun p => if p.1 = k then (k, v) else p)
    else
      m ++ [(k, v)]

/-- `tryGetInMap`: `attributes.get(kind)`. -/
def TypeAttributeStore.tryGetInMap {V : Type} (attributes : TypeAttributes V)
    (kind : TypeAttributeKind V) : Option V :=
  mapGet attributes kind.id

/-- `tryGet(kind, t)`. -/
def TypeAttributeStore.tryGet {V : Type} (s : TypeAttributeStore V) (kind : TypeAttributeKind V)
    (t : TypeNode) : Except GraphError (Option V) := do
  let attrs ← s.attributesForType t
  pure (TypeAttributeStore.tryGetInMap attrs kind)

/-- `TypeAttributeStoreView` (TypeGraph.ts lines 126-155): a typed facade
bound to one attribute kind. -/
structure TypeAttributeStoreView (V : Type) where
  attributeStore : TypeAttributeStore V
  definition : TypeAttributeKind V

/-- View `tryGet`. -/
def TypeAttributeStoreView.tryGet {V : Type} (v : TypeAttributeStoreView V) (t : TypeNode) :
    Except GraphError (Option V) :=
  v.attributeStore.tryGet v.definition t

/-- Modelled from the spec: `StringTypeMapping` (TypeBuilderUtils.ts, not
under src) is opaque configuration threaded through to node reconstruction
(spec section 4.4); we give it a single tag field. -/
structure StringTypeMapping where
  tag : Nat
deriving DecidableEq, Repr

/-- Modelled from the spec: `getNoStringTypeMapping()` — the distinguished
no-op mapping used by garbage collection and the fixed-point pass. -/
def getNoStringTypeMapping : StringTypeMapping := ⟨0⟩

/-- `TypeGraph` (TypeGraph.ts lines 157-526).  `typeBuilder` is `some ()`
while the graph is open (the TypeBuilder itself is outside src; the code in
scope only compares it against `undefined`), `none` once frozen. -/
structure TypeGraph (V : Type) where
  typeBuilder : Option Unit
  attributeStore : Option (TypeAttributeStore V)
  topLevels : List (String × Nat)
  types : Option (List TypeNode)
  printOnRewrite : Bool
  serial : Nat
  haveProvenanceAttributes : Bool
deriving DecidableEq

/-- `private get isFrozen` — the graph is frozen once `_typeBuilder` is
`undefined`. -/
def TypeGraph.isFrozen {V : Type} (g : TypeGraph V) : Bool :=
  g.typeBuilder.isNone

/-- `get attributeStore`: `defined(this._attributeStore)`. -/
def TypeGraph.attributeStoreGet {V : Type} (g : TypeGraph V) :
    Except GraphError (TypeAttributeStore V) :=
  match g.attributeStore with
  | some s => .ok s
  | none => .error (.assertionFailed "attribute store is not defined")

/-- Modelled from the spec: `derefTypeRef` (TypeRef.ts, not under src;
spec section 3) asserts the reference belongs to this generation and resolves
it; in the arena model the resolved node is the one at the carried index, so
we return the index. -/
def derefTypeRefIndex {V : Type} (r : TypeRef) (g : TypeGraph V) : Except GraphError Nat :=
  if r.graphSerial = g.serial then
    .ok r.index
  else
    .error (.assertionFailed "TypeRef is in different graph")

/-- `mapMap(topLevels, tref => derefTypeRef(tref, this))` from `freeze`:
resolve every top-level reference against the graph, preserving names and
order. -/
def mapMapDeref {V : Type} (g : TypeGraph V) :
    List (String × TypeRef) → Except GraphError (List (String × Nat))
  | [] => pure []
  | p :: rest => do
      let i ← derefTypeRefIndex p.2 g
      let tail ← mapMapDeref g rest
      pure ((p.1, i) :: tail)

/-- `freeze(topLevels, types, typeAttributes)` (lines 188-207): asserts the
graph is not already frozen, validates every node's reference against this
graph, installs the attribute store, the node array, clears the builder, and
resolves the top-level references (in that order, as in the source). -/
def TypeGraph.freeze {V : Type} (g : TypeGraph V) (topLevelRefs : List (String × TypeRef))
    (types : List TypeNode) (typeAttributes : List (Option (TypeAttributes V))) :
    Except GraphError (TypeGraph V) := do
  if g.isFrozen then
    throw (.assertionFailed "Tried to freeze TypeGraph a second time")
  if h : ∀ t ∈ types, t.ref.graphSerial = g.serial then
    let frozen : TypeGraph V :=
      { g with
        attributeStore := some ⟨g.serial, [], typeAttributes⟩
        types := some types
        typeBuilder := none }
    let tl ← mapMapDeref frozen topLevelRefs
    pure { frozen with topLevels := tl }
  else
    throw (.assertionFailed "TypeRef is in different graph")

/-- `get topLevels` (lines 209-213): asserts the graph is frozen. -/
def TypeGraph.topLevelsGet {V : Type} (g : TypeGraph V) :
    Except GraphError (List (String × Nat)) :=
  if g.isFrozen then
    .ok g.topLevels
  else
    .error (.assertionFailed "Cannot get top-levels from a non-frozen graph")

/-- `allTypesUnordered` (lines 467-473): asserts the graph is frozen and
returns `new Set(defined(this._types))`. -/
def TypeGraph.allTypesUnordered {V : Type} (g : TypeGraph V) :
    Except GraphError (List TypeNode) :=
  if g.isFrozen then
    match g.types with
    | some ts => .ok (jsSet ts)
    | none => .error (.assertionFailed "types are not defined")
  else
    .error (.assertionFailed "Tried to get all graph types before it was frozen")

/-- Children of the node at arena index `i` (a node's `getChildren()`; for an
index with no node the enumeration is empty — such an index never occurs on a
well-formed frozen graph). -/
def childIndices (ts : List TypeNode) (i : Nat) : List Nat :=
  (((ts.get? i)).map TypeNode.children).getD []

/-- `const required = predicate === undefined || predicate(t)` from
`filterTypes`. -/
def requiredOf (pred : Option (TypeNode → Bool)) (t : TypeNode) : Bool :=
  match pred with
  | none => true
  | some p => p t

/-- The worklist form of `filterTypes`' recursive `addFromType` (lines
233-262): pop a node; skip it when seen; otherwise mark it, emit it when the
predicate holds, and push its children in front of the remaining work.  This
visits nodes in exactly the order of the recursive source function and is
total on cyclic graphs — the seen set guards termination. -/
def filterTypesGo (ts : List TypeNode) (pred : Option (TypeNode → Bool)) :
    List Nat → Finset Nat → List Nat → Finset Nat × List Nat
  | [], seen, acc => (seen, acc)
  | i :: stack, seen, acc =>
      if i ∈ seen then
        filterTypesGo ts pred stack seen acc
      else
        match hm : ts.get? i with
        | none => filterTypesGo ts pred stack (insert i seen) acc
        | some t =>
            let required := requiredOf pred t
            filterTypesGo ts pred (t.children ++ stack) (insert i seen)
              (if required then acc ++ [i] else acc)
termination_by stack seen _ => ((Finset.range ts.length \ seen).card, stack.length)
decreasing_by
  · exact Prod.Lex.right _ (Nat.lt_succ_self _)
  · have hlen : ts.length ≤ i := List.get?_eq_none.mp hm
    have hnotmem : i ∉ Finset.range ts.length \ seen := by
      simp only [Finset.mem_sdiff, Finset.mem_range]
      intro hctr
      omega
    have heq : Finset.range ts.length \ insert i seen = Finset.range ts.length \ seen := by
      rw [Finset.sdiff_insert, Finset.erase_eq_of_not_mem hnotmem]
    rw [heq]
    exact Prod.Lex.right _ (Nat.lt_succ_self _)
  · apply Prod.Lex.left
    have hi : i < ts.length := by
      rcases List.get?_eq_some.mp hm with ⟨hlt, _⟩
      exact hlt
    have hmem : i ∈ Finset.range ts.length \ seen := by
      simp only [Finset.mem_sdiff, Finset.mem_range]
      exact ⟨hi, by assumption⟩
    rw [Finset.sdiff_insert]
    exact Finset.card_erase_lt_of_mem hmem

/-- `filterTypes(predicate)` (lines 233-262): depth-first traversal from every
top-level root, returning the deduplicated list of visited nodes satisfying
the predicate (arena indices, preorder). -/
def TypeGraph.filterTypes {V : Type} (g : TypeGraph V) (pred : Option (TypeNode → Bool)) :
    Except GraphError (List Nat) := do
  let tops ← g.topLevelsGet
  let ts := g.types.getD []
  pure (filterTypesGo ts pred (tops.map (fun p => p.2)) ∅ []).2

/-- `allNamedTypes` (lines 264-266): `filterTypes(isNamedType)`; the external
"is named" predicate is the node's `named` field. -/
def TypeGraph.allNamedTypes {V : Type} (g : TypeGraph V) : Except GraphError (List Nat) :=
  g.filterTypes (some TypeNode.named)

/-- Reachability through child edges in the arena `ts`. -/
def ReachIn (ts : List TypeNode) : Nat → Nat → Prop :=
  Relation.ReflTransGen (fun a b => b ∈ childIndices ts a)

/-- The node at index `i` exists and satisfies the filter predicate. -/
def PredAt (ts : List TypeNode) (pred : Option (TypeNode → Bool)) (i : Nat) : Prop :=
  ∃ t, ts.get? i = some t ∧ requiredOf pred t = true

/-- Modelled from the spec: `provenanceTypeAttributeKind`
(ProvenanceTypeAttributeKind.ts, not under src) — its values are sets of
integer origin markers, merged by union (spec section 3, Provenance Set). -/
def provenanceTypeAttributeKind : TypeAttributeKind (Finset Nat) :=
  { id := 0, combine := fun a b => a ∪ b }

/-- `allProvenance` (lines 274-290): asserts provenance tracking is on, reads
every node's provenance attribute through a view and unions the sets. -/
def TypeGraph.allProvenance (g : TypeGraph (Finset Nat)) : Except GraphError (Finset Nat) := do
  if !g.haveProvenanceAttributes then
    throw (.assertionFailed "allProvenance without provenance attributes")
  let store ← g.attributeStoreGet
  let view : TypeAttributeStoreView (Finset Nat) := ⟨store, provenanceTypeAttributeKind⟩
  let ts ← g.allTypesUnordered
  ts.foldlM
    (fun acc t => do
      let maybeSet ← view.tryGet t
      pure (acc ∪ maybeSet.getD ∅))
    (∅ : Finset Nat)

/-- `checkLostTypeAttributes(builder, newGraph)` (lines 296-314): only active
when the old graph tracks provenance and the builder did not flag lost
attributes; compares the SIZES of the two provenance unions, and reports
`IRTypeAttributesNotPropagated` with the set difference old minus new when
they differ.  (The order of the reported index list is unspecified in the
source — `Array.from` of a JS Set; we sort it.) -/
def TypeGraph.checkLostTypeAttributes (g : TypeGraph (Finset Nat))
    (builderLostTypeAttributes : Bool) (newGraph : TypeGraph (Finset Nat)) :
    Except GraphError Unit := do
  if !g.haveProvenanceAttributes || builderLostTypeAttributes then
    return ()
  let oldProvenance ← g.allProvenance
  let newProvenance ← newGraph.allProvenance
  if oldProvenance.card ≠ newProvenance.card then
    let difference := oldProvenance \ newProvenance
    throw (.attributesNotPropagated difference.card (difference.sort (· ≤ ·)))
  return ()

/-- `setPrintOnRewrite` (lines 292-294). -/
def TypeGraph.setPrintOnRewrite {V : Type} (g : TypeGraph V) : TypeGraph V :=
  { g with printOnRewrite := true }

/-- Modelled from the spec: the outcome of a `GraphRewriteBuilder` /
`GraphRemapBuilder` (GraphRewriting.ts, not under src).  The builder walks the
old graph together with the replacer and produces the contents of the new
generation; the engine only inspects the finished graph and the two flags
`didAddForwardingIntersection` and `lostTypeAttributes`, so we abstract the
construction as its result: the built node array, top levels and attribute
array, plus those flags. -/
structure BuilderModel where
  builtTypes : List TypeNode
  builtTopLevels : List (String × Nat)
  builtTopLevelAttrs : List (String × TypeAttributes (Finset Nat))
  builtAttrs : List (Option (TypeAttributes (Finset Nat)))
  didAddForwardingIntersection : Bool
  lostTypeAttributes : Bool

/-- Modelled from the spec: `new TypeGraph(builder, serial, prov)` (lines
172-178) — a fresh open graph owned by the builder. -/
def mkOpenTypeGraph (serial : Nat) (haveProvenanceAttributes : Bool) :
    TypeGraph (Finset Nat) :=
  { typeBuilder := some ()
    attributeStore := none
    topLevels := []
    types := none
    printOnRewrite := false
    serial := serial
    haveProvenanceAttributes := haveProvenanceAttributes }

/-- Modelled from the spec: `builder.finish()` (GraphRewriting.ts, not under
src; spec sections 2 item 6 and 4.4) — the builder populates the open graph it
owns (the one the engine created with serial old + 1) and freezes it; the
serial is the one the open graph was created with. -/
def BuilderModel.finish (b : BuilderModel) (openGraph : TypeGraph (Finset Nat)) :
    TypeGraph (Finset Nat) :=
  { openGraph with
    typeBuilder := none
    attributeStore := some ⟨openGraph.serial, b.builtTopLevelAttrs, b.builtAttrs⟩
    types := some b.builtTypes
    topLevels := b.builtTopLevels }

/-- Modelled from the spec: `removeIndirectionIntersections`
(TypeGraphUtils.ts, not under src; spec section 4.4) — a corrective rewrite
pass over the new graph that eliminates the forwarding placeholder
intersections.  Per spec section 3 every structural change produces a new
Type Graph generation with serial = previous + 1; the pass's contents are
otherwise irrelevant to the claims, so we model only the generation step. -/
def removeIndirectionIntersections (g : TypeGraph (Finset Nat))
    (stringTypeMapping : StringTypeMapping) (debugPrintReconstitution : Bool) :
    TypeGraph (Finset Nat) :=
  { g with serial := g.serial + 1 }

/-- `rewrite(title, stringTypeMapping, alphabetizeProperties,
replacementGroups, debugPrintReconstitution, replacer, force)` (lines
330-381).  The builder construction and the replacer are abstracted by
`builder : BuilderModel` (see its doc comment); everything else follows the
source statement by statement: the no-op short circuit, building the new
generation at serial + 1, the lost-attribute check, propagating
`printOnRewrite`, and the corrective indirection-removal pass when the
builder added a forwarding intersection. -/
def TypeGraph.rewrite (g : TypeGraph (Finset Nat)) (title : String)
    (stringTypeMapping : StringTypeMapping) (alphabetizeProperties : Bool)
    (replacementGroups : List (List TypeNode)) (debugPrintReconstitution : Bool)
    (builder : BuilderModel) (force : Bool) : Except GraphError (TypeGraph (Finset Nat)) := do
  if !force && replacementGroups.length = 0 then
    return g
  let newGraph := builder.finish (mkOpenTypeGraph (g.serial + 1) g.haveProvenanceAttributes)
  g.checkLostTypeAttributes builder.lostTypeAttributes newGraph
  let newGraph := if g.printOnRewrite then newGraph.setPrintOnRewrite else newGraph
  if !builder.didAddForwardingIntersection then
    return newGraph
  return removeIndirectionIntersections newGraph stringTypeMapping debugPrintReconstitution

/-- `remap(title, stringTypeMapping, alphabetizeProperties, map,
debugPrintRemapping, force)` (lines 383-422): like `rewrite` but keyed on the
substitution map being empty, and asserting afterwards that the builder never
needed a forwarding intersection. -/
def TypeGraph.remap (g : TypeGraph (Finset Nat)) (title : String)
    (stringTypeMapping : StringTypeMapping) (alphabetizeProperties : Bool)
    (map : List (TypeNode × TypeNode)) (debugPrintRemapping : Bool)
    (builder : BuilderModel) (force : Bool) : Except GraphError (TypeGraph (Finset Nat)) := do
  if !force && map.length = 0 then
    return g
  let newGraph := builder.finish (mkOpenTypeGraph (g.serial + 1) g.haveProvenanceAttributes)
  g.checkLostTypeAttributes builder.lostTypeAttributes newGraph
  let newGraph := if g.printOnRewrite then newGraph.setPrintOnRewrite else newGraph
  if builder.didAddForwardingIntersection then
    throw (.assertionFailed "remap builder added a forwarding intersection")
  return newGraph

/-- `garbageCollect(alphabetizeProperties, debugPrintReconstitution)` (lines
424-438): a remap with the no-op string type mapping, an empty substitution
map and force.  The builder outcome is abstract, as for `remap`. -/
def TypeGraph.garbageCollect (g : TypeGraph (Finset Nat)) (alphabetizeProperties : Bool)
    (debugPrintReconstitution : Bool) (builder : BuilderModel) :
    Except GraphError (TypeGraph (Finset Nat)) :=
  g.remap "GC" getNoStringTypeMapping alphabetizeProperties [] debugPrintReconstitution
    builder true

/-- The loop of `rewriteFixedPoint` (lines 440-465), with an explicit
iteration budget (`Option.none` result = budget exhausted, i.e. the loop would
still be running).  One iteration: `newGraph := this.rewrite("fixed-point",
noMapping, alph, [], debug, mustNotHappen, true)` — note the source invokes
the rewrite on `this` (the graph `rewriteFixedPoint` was called on, here
`g0`), not on the loop variable `graph`; the builder constructed by that call
is therefore `mkBuilder g0` each time.  The loop returns `graph` as soon as
`graph` and `newGraph` have the same number of distinct nodes, else continues
with `graph := newGraph`. -/
def rewriteFixedPointGo (g0 : TypeGraph (Finset Nat)) (alphabetizeProperties : Bool)
    (debugPrintReconstitution : Bool) (mkBuilder : TypeGraph (Finset Nat) → BuilderModel) :
    Nat → TypeGraph (Finset Nat) → Except GraphError (Option (TypeGraph (Finset Nat)))
  | 0, _ => pure none
  | fuel + 1, graph => do
      let newGraph ← g0.rewrite "fixed-point" getNoStringTypeMapping alphabetizeProperties []
        debugPrintReconstitution (mkBuilder g0) true
      let graphTypes ← graph.allTypesUnordered
      let newTypes ← newGraph.allTypesUnordered
      if graphTypes.length = newTypes.length then
        return (some graph)
      rewriteFixedPointGo g0 alphabetizeProperties debugPrintReconstitution mkBuilder
        fuel newGraph

/-- `rewriteFixedPoint(alphabetizeProperties, debugPrintReconstitution)`:
start the loop at `graph := this` with the given iteration budget. -/
def TypeGraph.rewriteFixedPoint (g : TypeGraph (Finset Nat)) (alphabetizeProperties : Bool)
    (debugPrintReconstitution : Bool) (mkBuilder : TypeGraph (Finset Nat) → BuilderModel)
    (fuel : Nat) : Except GraphError (Option (TypeGraph (Finset Nat))) :=
  rewriteFixedPointGo g alphabetizeProperties debugPrintReconstitution mkBuilder fuel g

/-- Modelled from the spec (section 4.8 and the testable property in section
8): the fixed-point loop as the spec states it — each iteration rewrites the
graph produced by the previous iteration and stops when the reachable-node
count stops changing.  This is the comparison point for the divergence of the
source's `rewriteFixedPoint`. -/
def rewriteFixedPointSpecGo (alphabetizeProperties : Bool)
    (debugPrintReconstitution : Bool) (mkBuilder : TypeGraph (Finset Nat) → BuilderModel) :
    Nat → TypeGraph (Finset Nat) → Except GraphError (Option (TypeGraph (Finset Nat)))
  | 0, _ => pure none
  | fuel + 1, graph => do
      let newGraph ← graph.rewrite "fixed-point" getNoStringTypeMapping alphabetizeProperties []
        debugPrintReconstitution (mkBuilder graph) true
      let graphTypes ← graph.allTypesUnordered
      let newTypes ← newGraph.allTypesUnordered
      if graphTypes.length = newTypes.length then
        return (some graph)
      rewriteFixedPointSpecGo alphabetizeProperties debugPrintReconstitution mkBuilder
        fuel newGraph

/-- A childless, unnamed node of generation 0 at index `i` (example data). -/
def exNode (i : Nat) : TypeNode := ⟨⟨0, i⟩, [], false⟩

/-- Example: a frozen three-node graph of generation 0, no provenance
tracking. -/
def exGraph3 : TypeGraph (Finset Nat) :=
  { typeBuilder := none
    attributeStore := none
    topLevels := []
    types := some [exNode 0, exNode 1, exNode 2]
    printOnRewrite := false
    serial := 0
    haveProvenanceAttributes := false }

/-- Example builder behaviour: each forced pass drops the first node of the
graph it rebuilds (a deterministic, strictly shrinking pass, standing for a
pass that discards one unreachable node per run). -/
def dropBuilder (g : TypeGraph (Finset Nat)) : BuilderModel :=
  { builtTypes := (g.types.getD []).drop 1
    builtTopLevels := []
    builtTopLevelAttrs := []
    builtAttrs := []
    didAddForwardingIntersection := false
    lostTypeAttributes := false }

/-- The generation `dropBuilder` produces from `exGraph3`. -/
def exGraph3Dropped : TypeGraph (Finset Nat) :=
  { typeBuilder := none
    attributeStore := some ⟨1, [], []⟩
    topLevels := []
    types := some [exNode 1, exNode 2]
    printOnRewrite := false
    serial := 1
    haveProvenanceAttributes := false }

/-- Example builder outcome with a forwarding indirection intersection. -/
def exFwdBuilder : BuilderModel :=
  { builtTypes := []
    builtTopLevels := []
    builtTopLevelAttrs := []
    builtAttrs := []
    didAddForwardingIntersection := true
    lostTypeAttributes := false }

/-- Example builder outcome with no forwarding intersection. -/
def plainBuilder : BuilderModel :=
  { builtTypes := []
    builtTopLevels := []
    builtTopLevelAttrs := []
    builtAttrs := []
    didAddForwardingIntersection := false
    lostTypeAttributes := false }

/-- A frozen single-node graph of the given generation whose node carries the
given provenance set (attribute kind 0 = provenance). -/
def mkProvGraph (serial : Nat) (prov : Finset Nat) : TypeGraph (Finset Nat) :=
  { typeBuilder := none
    attributeStore := some ⟨serial, [], [some [(0, prov)]]⟩
    topLevels := []
    types := some [⟨⟨serial, 0⟩, [], false⟩]
    printOnRewrite := false
    serial := serial
    haveProvenanceAttributes := true }

/-- Example old/new generations whose provenance unions differ as sets but
have equal size. -/
def exProvOld12 : TypeGraph (Finset Nat) := mkProvGraph 0 {1, 2}

/-- New generation with provenance union matching exProvOld12 in size only. -/
def exProvNew23 : TypeGraph (Finset Nat) := mkProvGraph 1 {2, 3}

/-- Example old generation with provenance union strictly below the new
one's. -/
def exProvOld1 : TypeGraph (Finset Nat) := mkProvGraph 0 {1}

/-- New generation with strictly larger provenance union than exProvOld1. -/
def exProvNew12 : TypeGraph (Finset Nat) := mkProvGraph 1 {1, 2}

/-- Example attribute kind whose merge rule is addition — visibly not
overwrite. -/
def sumKind : TypeAttributeKind Nat := { id := 5, combine := fun a b => a + b }

/-- Example attribute store of generation 0 with no attributes yet. -/
def exC1Store : TypeAttributeStore Nat := ⟨0, [], []⟩

/-- Example node of generation 0 at index 0. -/
def exC1Node : TypeNode := ⟨⟨0, 0⟩, [], false⟩

/-- Example open (not yet frozen) graph. -/
def exOpen : TypeGraph (Finset Nat) :=
  { typeBuilder := some ()
    attributeStore := none
    topLevels := []
    types := none
    printOnRewrite := false
    serial := 0
    haveProvenanceAttributes := false }

/-- Example frozen graph with a child cycle 0 -> 1 -> 0, a branch 1 -> 2, and
root "R" -> 0; nodes 0 and 1 are named, node 2 is not. -/
def exCyclic : TypeGraph (Finset Nat) :=
  { typeBuilder := none
    attributeStore := none
    topLevels := [("R", 0)]
    types := some [⟨⟨0, 0⟩, [1], true⟩, ⟨⟨0, 1⟩, [0, 2], true⟩, ⟨⟨0, 2⟩, [], false⟩]
    printOnRewrite := false
    serial := 0
    haveProvenanceAttributes := false }

/-- Example frozen graph where node 1 is unreachable from the only root. -/
def exUnreach : TypeGraph (Finset Nat) :=
  { typeBuilder := none
    attributeStore := none
    topLevels := [("R", 0)]
    types := some [⟨⟨0, 0⟩, [], true⟩, ⟨⟨0, 1⟩, [], true⟩]
    printOnRewrite := false
    serial := 0
    haveProvenanceAttributes := false }

/-! Helper lemmas about the JS collection models. -/

theorem mapGet_mapSet {V : Type} (m : TypeAttributes V) (k : Nat) (v : V) :
    mapGet (mapSet m k v) k = some v := by
  induction m with
  | nil => simp [mapGet, mapSet, List.find?]
  | cons p m ih =>
    by_cases hp : p.1 = k
    · simp [mapSet, List.any_cons, hp, mapGet, List.find?]
    · by_cases ha : m.any (fun q => q.1 = k)
      · have hms : mapSet m k v = m.map (fun q => if q.1 = k then (k, v) else q) := by
          simp [mapSet, ha]
        have : mapSet (p :: m) k v
            = p :: m.map (fun q => if q.1 = k then (k, v) else q) := by
          simp [mapSet, List.any_cons, hp, ha]
        rw [this, ← hms]
        simpa [mapGet, List.find?, hp] using ih
      · have hms : mapSet m k v = m ++ [(k, v)] := by
          simp [mapSet, ha]
        have : mapSet (p :: m) k v = p :: (m ++ [(k, v)]) := by
          simp [mapSet, List.any_cons, hp, ha]
        rw [this, ← hms]
        simpa [mapGet, List.find?, hp] using ih

theorem get?_set_self {α : Type} (l : List α) (i : Nat) (x : α) (h : i < l.length) :
    (l.set i x).get? i = some x := by
  simp [List.get?_eq_getElem?, List.getElem?_set_self h]

theorem jsSet_loop_mem {α : Type} [DecidableEq α] (l : List α) (acc : List α) (x : α) :
    x ∈ l.foldl (fun acc a => if a ∈ acc then acc else acc ++ [a]) acc ↔ x ∈ acc ∨ x ∈ l := by
  induction l generalizing acc with
  | nil => simp
  | cons a l ih =>
    simp only [List.foldl_cons]
    by_cases ha : a ∈ acc
    · rw [if_pos ha, ih]
      constructor
      · rintro (hx | hx)
        · exact Or.inl hx
        · exact Or.inr (List.mem_cons_of_mem _ hx)
      · rintro (hx | hx)
        · exact Or.inl hx
        · rcases List.mem_cons.mp hx with hx | hx
          · exact Or.inl (hx ▸ ha)
          · exact Or.inr hx
    · rw [if_neg ha, ih]
      constructor
      · rintro (hx | hx)
        · rcases List.mem_append.mp hx with hx | hx
          · exact Or.inl hx
          · simp at hx
            exact Or.inr (by simp [hx])
        · exact Or.inr (List.mem_cons_of_mem _ hx)
      · rintro (hx | hx)
        · exact Or.inl (List.mem_append.mpr (Or.inl hx))
        · rcases List.mem_cons.mp hx with hx | hx
          · exact Or.inl (by simp [hx])
          · exact Or.inr hx

theorem jsSet_loop_nodup {α : Type} [DecidableEq α] (l : List α) (acc : List α)
    (hacc : acc.Nodup) :
    (l.foldl (fun acc a => if a ∈ acc then acc else acc ++ [a]) acc).Nodup := by
  induction l generalizing acc with
  | nil => simpa using hacc
  | cons a l ih =>
    simp only [List.foldl_cons]
    by_cases ha : a ∈ acc
    · rw [if_pos ha]
      exact ih acc hacc
    · rw [if_neg ha]
      refine ih _ ?_
      simpa [List.nodup_append] using ⟨hacc, ha⟩

theorem mem_jsSet {α : Type} [DecidableEq α] (l : List α) (x : α) :
    x ∈ jsSet l ↔ x ∈ l := by
  unfold jsSet
  rw [jsSet_loop_mem]
  simp

theorem nodup_jsSet {α : Type} [DecidableEq α] (l : List α) : (jsSet l).Nodup :=
  jsSet_loop_nodup l [] List.nodup_nil

theorem mapMapDeref_ok {V : Type} (g : TypeGraph V)
    (tl : List (String × TypeRef)) (h : ∀ p ∈ tl, p.2.graphSerial = g.serial) :
    mapMapDeref g tl = Except.ok (tl.map (fun p => (p.1, p.2.index))) := by
  induction tl with
  | nil => rfl
  | cons p tl ih =>
    have hp : p.2.graphSerial = g.serial := h p (List.mem_cons_self _ _)
    have htl : ∀ q ∈ tl, q.2.graphSerial = g.serial :=
      fun q hq => h q (List.mem_cons_of_mem _ hq)
    simp [mapMapDeref, derefTypeRefIndex, hp, ih htl]
    rfl

@[simp]
theorem exceptBind_ok {ε α β : Type} (x : α) (f : α → Except ε β) :
    (Except.ok x >>= f) = f x := rfl

@[simp]
theorem exceptBind_error {ε α β : Type} (e : ε) (f : α → Except ε β) :
    ((Except.error e : Except ε α) >>= f) = Except.error e := rfl

@[simp]
theorem exceptPure_eq_ok {ε α : Type} (x : α) :
    (pure x : Except ε α) = Except.ok x := rfl

@[simp]
theorem exceptThrow_eq_error {ε α : Type} (e : ε) :
    (throw e : Except ε α) = Except.error e := rfl

@[simp]
theorem exceptMap_ok {ε α β : Type} (f : α → β) (x : α) :
    (Except.ok x : Except ε α).map f = Except.ok (f x) := rfl

@[simp]
theorem exceptMap_error {ε α β : Type} (f : α → β) (e : ε) :
    (Except.error e : Except ε α).map f = Except.error e := rfl

@[simp]
theorem setPrintOnRewrite_serial {V : Type} (g : TypeGraph V) :
    g.setPrintOnRewrite.serial = g.serial := rfl

theorem TypeAttributeStore.set_ok {V : Type} (s : TypeAttributeStore V)
    (kind : TypeAttributeKind V) (t : TypeNode) (v : V)
    (h : t.ref.graphSerial = s.graphSerial) :
    ∃ s2, s.set kind t v = .ok s2 ∧ s2.graphSerial = s.graphSerial ∧
      s2.tryGet kind t = .ok (some v) := by
  have hlen : t.ref.index
      < (s.values ++ List.replicate (t.ref.index + 1 - s.values.length) none).length := by
    simp only [List.length_append, List.length_replicate]
    omega
  refine ⟨{ graphSerial := s.graphSerial
            topLevelValues := s.topLevelValues
            values :=
              (s.values ++ List.replicate (t.ref.index + 1 - s.values.length) none).set
                t.ref.index
                (some (TypeAttributeStore.setInMap
                  ((((s.values ++ List.replicate (t.ref.index + 1 - s.values.length)
                        none).get? t.ref.index)).getD none |>.getD emptyTypeAttributes)
                  kind v)) }, ?_, rfl, ?_⟩
  · simp [TypeAttributeStore.set, TypeAttributeStore.getTypeIndex, h,
      TypeAttributeStore.attributesForType]
  · simp [TypeAttributeStore.tryGet, TypeAttributeStore.getTypeIndex, h,
      TypeAttributeStore.attributesForType, TypeAttributeStore.tryGetInMap,
      TypeAttributeStore.setInMap, List.getElem?_set_eq_of_lt _ hlen, mapGet_mapSet]

theorem checkLost_eq (g newGraph : TypeGraph (Finset Nat)) (P Q : Finset Nat)
    (hHave : g.haveProvenanceAttributes = true)
    (hP : g.allProvenance = .ok P) (hQ : newGraph.allProvenance = .ok Q) :
    g.checkLostTypeAttributes false newGraph =
      (if P.card = Q.card then .ok ()
       else .error (.attributesNotPropagated (P \ Q).card ((P \ Q).sort (· ≤ ·)))) := by
  unfold TypeGraph.checkLostTypeAttributes
  by_cases hc : P.card = Q.card
  · simp [hHave, hP, hQ, hc]
  · simp [hHave, hP, hQ, hc]

/-- C1 (counterexample): `TypeAttributeStore.set` does NOT merge the new value
with the stored one under the kind's merge rule — it writes it over wholesale.
With a kind whose merge rule is addition, setting 1 and then 2 leaves the
stored value 2, not `combine 1 2 = 3`. -/
theorem claim_C1_counterexample :
    (do
      let s1 ← exC1Store.set sumKind exC1Node 1
      let s2 ← s1.set sumKind exC1Node 2
      s2.tryGet sumKind exC1Node) = Except.ok (some 2) ∧
    (Except.ok (some 2) : Except GraphError (Option Nat))
      ≠ Except.ok (some (sumKind.combine 1 2)) := by
  exact ⟨by decide, by decide⟩

/-- C1 (amended): for every store, kind, node with a valid reference and
values v1, v2, `set(kind, t, v1)` then `set(kind, t, v2)` leaves
`tryGet(kind, t) = v2`: the second write replaces the entry for that kind
wholesale (JS `Map.set`); the kind's merge rule is never consulted. -/
theorem claim_C1_amended {V : Type} (s : TypeAttributeStore V) (kind : TypeAttributeKind V)
    (t : TypeNode) (v1 v2 : V) (h : t.ref.graphSerial = s.graphSerial) :
    ∃ s1 s2, s.set kind t v1 = .ok s1 ∧ s1.set kind t v2 = .ok s2 ∧
      s2.tryGet kind t = .ok (some v2) := by
  obtain ⟨s1, hset1, hser1, _⟩ := TypeAttributeStore.set_ok s kind t v1 h
  obtain ⟨s2, hset2, _, hget2⟩ :=
    TypeAttributeStore.set_ok s1 kind t v2 (h.trans hser1.symm)
  exact ⟨s1, s2, hset1, hset2, hget2⟩

/-- Witness for C1 (amended) at a concrete store, kind, node and values. -/
theorem claim_C1_amended_witness :
    ∃ s1 s2, exC1Store.set sumKind exC1Node 10 = .ok s1 ∧
      s1.set sumKind exC1Node 20 = .ok s2 ∧
      s2.tryGet sumKind exC1Node = .ok (some 20) :=
  claim_C1_amended exC1Store sumKind exC1Node 10 20 (by decide)

/-- C2 (counterexample): with provenance tracking on and the builder not
flagging lost attributes, origin marker 1 is present in the old graph's
provenance union and absent from the new one's, yet no
attributes-not-propagated error is reported, because the two unions have
equal size. -/
theorem claim_C2_counterexample :
    exProvOld12.haveProvenanceAttributes = true ∧
    exProvOld12.allProvenance = .ok {1, 2} ∧
    exProvNew23.allProvenance = .ok {2, 3} ∧
    (1 : Nat) ∈ ({1, 2} : Finset Nat) ∧ (1 : Nat) ∉ ({2, 3} : Finset Nat) ∧
    exProvOld12.checkLostTypeAttributes false exProvNew23 = .ok () := by
  exact ⟨by decide, by decide, by decide, by decide, by decide, by decide⟩

/-- C2 (amended): with provenance tracking enabled and the builder not
declaring dropped attributes, the attributes-not-propagated error is reported
if and only if the old and new provenance unions have different
cardinalities; when reported it carries the count and the markers of
old minus new.  A missing marker offset by an equal number of gained markers
is NOT reported. -/
theorem claim_C2_amended (g newGraph : TypeGraph (Finset Nat)) (P Q : Finset Nat)
    (hHave : g.haveProvenanceAttributes = true)
    (hP : g.allProvenance = .ok P) (hQ : newGraph.allProvenance = .ok Q) :
    (g.checkLostTypeAttributes false newGraph = .ok () ↔ P.card = Q.card) ∧
    (P.card ≠ Q.card →
      g.checkLostTypeAttributes false newGraph
        = .error (.attributesNotPropagated (P \ Q).card ((P \ Q).sort (· ≤ ·)))) := by
  have hcl := checkLost_eq g newGraph P Q hHave hP hQ
  refine ⟨⟨?_, ?_⟩, ?_⟩
  · intro hok
    by_contra hne
    rw [hcl, if_neg hne] at hok
    exact absurd hok (by simp)
  · intro hc
    rw [hcl, if_pos hc]
  · intro hne
    rw [hcl, if_neg hne]

/-- Witness for C2 (amended) at the concrete equal-size graphs. -/
theorem claim_C2_amended_witness :
    exProvOld12.checkLostTypeAttributes false exProvNew23 = .ok () :=
  (claim_C2_amended exProvOld12 exProvNew23 {1, 2} {2, 3} (by decide) (by decide)
      (by decide)).1.mpr (by decide)

/-- C9: the check is cardinality-only — the error is raised iff the old and
new provenance unions have different sizes; equally many lost and gained
markers raise no error; and a strictly larger new union raises the error with
count 0 and an empty missing-marker list. -/
theorem claim_C9_size_only_check (g newGraph : TypeGraph (Finset Nat)) (P Q : Finset Nat)
    (hHave : g.haveProvenanceAttributes = true)
    (hP : g.allProvenance = .ok P) (hQ : newGraph.allProvenance = .ok Q) :
    ((∃ c idx, g.checkLostTypeAttributes false newGraph
        = .error (.attributesNotPropagated c idx)) ↔ P.card ≠ Q.card) ∧
    (P ≠ Q → P.card = Q.card → g.checkLostTypeAttributes false newGraph = .ok ()) ∧
    (P ⊂ Q → g.checkLostTypeAttributes false newGraph
        = .error (.attributesNotPropagated 0 [])) := by
  have hcl := checkLost_eq g newGraph P Q hHave hP hQ
  refine ⟨⟨?_, ?_⟩, ?_, ?_⟩
  · rintro ⟨c, idx, herr⟩
    intro hc
    rw [hcl, if_pos hc] at herr
    exact absurd herr (by simp)
  · intro hne
    exact ⟨_, _, by rw [hcl, if_neg hne]⟩
  · intro _ hc
    rw [hcl, if_pos hc]
  · intro hsub
    have hlt : P.card < Q.card := Finset.card_lt_card hsub
    have hne : P.card ≠ Q.card := Nat.ne_of_lt hlt
    have hempty : P \ Q = ∅ := Finset.sdiff_eq_empty_iff_subset.mpr hsub.subset
    rw [hcl, if_neg hne, hempty]
    simp

/-- Witness for C9 at concrete graphs whose new provenance union strictly
contains the old one. -/
theorem claim_C9_witness :
    exProvOld1.checkLostTypeAttributes false exProvNew12
      = .error (.attributesNotPropagated 0 []) :=
  (claim_C9_size_only_check exProvOld1 exProvNew12 {1} {1, 2} (by decide) (by decide)
      (by decide)).2.2 (by decide)

/-- C5: `rewrite` with an empty replacement-group list and force=false, and
`remap` with an empty substitution map and force=false, both return the
identical graph (no new generation is built). -/
theorem claim_C5_noop_shortcircuit (g : TypeGraph (Finset Nat)) (title : String)
    (stm : StringTypeMapping) (alph : Bool) (debug : Bool) (b : BuilderModel) :
    g.rewrite title stm alph [] debug b false = .ok g ∧
    g.remap title stm alph [] debug b false = .ok g :=
  ⟨rfl, rfl⟩

/-- C6: `garbageCollect(alphabetizeProperties, debugFlag)` is exactly `remap`
with title "GC", the no-op string type mapping, an empty substitution map and
force=true. -/
theorem claim_C6_gc_is_forced_remap (g : TypeGraph (Finset Nat)) (alph debug : Bool)
    (b : BuilderModel) :
    g.garbageCollect alph debug b
      = g.remap "GC" getNoStringTypeMapping alph [] debug b true :=
  rfl

/-- C7 (counterexample): a rewrite whose builder added a forwarding
indirection intersection returns the graph of the corrective
`removeIndirectionIntersections` pass, whose serial is the old serial plus 2,
not plus 1. -/
theorem claim_C7_counterexample :
    (exGraph3.rewrite "x" getNoStringTypeMapping false [[exNode 0]] false exFwdBuilder
        false).map TypeGraph.serial = .ok (exGraph3.serial + 2) ∧
    exGraph3.serial + 2 ≠ exGraph3.serial + 1 := by
  exact ⟨by decide, by decide⟩

/-- C7 (amended): a rewrite or remap that builds a new generation returns a
graph with serial = old serial + 1, except that a rewrite whose builder
added a forwarding indirection intersection returns the corrective pass's
graph with serial = old serial + 2; the old graph is a pure input and is
never modified. -/
theorem claim_C7_amended (g : TypeGraph (Finset Nat)) (title : String)
    (stm : StringTypeMapping) (alph : Bool) (groups : List (List TypeNode))
    (map : List (TypeNode × TypeNode)) (debug : Bool) (b : BuilderModel) (force : Bool)
    (hg : force = true ∨ groups ≠ [])
    (hm : force = true ∨ map ≠ [])
    (hchk : g.checkLostTypeAttributes b.lostTypeAttributes
        (b.finish (mkOpenTypeGraph (g.serial + 1) g.haveProvenanceAttributes)) = .ok ()) :
    (b.didAddForwardingIntersection = false →
      (g.rewrite title stm alph groups debug b force).map TypeGraph.serial
          = .ok (g.serial + 1) ∧
      (g.remap title stm alph map debug b force).map TypeGraph.serial
          = .ok (g.serial + 1)) ∧
    (b.didAddForwardingIntersection = true →
      (g.rewrite title stm alph groups debug b force).map TypeGraph.serial
        = .ok (g.serial + 2)) := by
  simp only [BuilderModel.finish, mkOpenTypeGraph] at hchk
  have hglen : force = true ∨ groups.length ≠ 0 := by
    rcases hg with hf | hne
    · exact Or.inl hf
    · exact Or.inr (by simpa [List.length_eq_zero] using hne)
  have hmlen : force = true ∨ map.length ≠ 0 := by
    rcases hm with hf | hne
    · exact Or.inl hf
    · exact Or.inr (by simpa [List.length_eq_zero] using hne)
  constructor
  · intro hdid
    constructor
    · rcases hglen with hf | hlen
      · subst hf
        simp [TypeGraph.rewrite, hchk, hdid, TypeGraph.setPrintOnRewrite,
          BuilderModel.finish, mkOpenTypeGraph, apply_ite TypeGraph.serial]
      · cases force
        · simp [TypeGraph.rewrite, hlen, hchk, hdid, TypeGraph.setPrintOnRewrite,
            BuilderModel.finish, mkOpenTypeGraph, apply_ite TypeGraph.serial]
        · simp [TypeGraph.rewrite, hchk, hdid, TypeGraph.setPrintOnRewrite,
            BuilderModel.finish, mkOpenTypeGraph, apply_ite TypeGraph.serial]
    · rcases hmlen with hf | hlen
      · subst hf
        simp [TypeGraph.remap, hchk, hdid, TypeGraph.setPrintOnRewrite,
          BuilderModel.finish, mkOpenTypeGraph, apply_ite TypeGraph.serial]
      · cases force
        · simp [TypeGraph.remap, hlen, hchk, hdid, TypeGraph.setPrintOnRewrite,
            BuilderModel.finish, mkOpenTypeGraph, apply_ite TypeGraph.serial]
        · simp [TypeGraph.remap, hchk, hdid, TypeGraph.setPrintOnRewrite,
            BuilderModel.finish, mkOpenTypeGraph, apply_ite TypeGraph.serial]
  · intro hdid
    rcases hglen with hf | hlen
    · subst hf
      simp [TypeGraph.rewrite, hchk, hdid, TypeGraph.setPrintOnRewrite,
        removeIndirectionIntersections, BuilderModel.finish, mkOpenTypeGraph,
        apply_ite TypeGraph.serial]
    · cases force
      · simp [TypeGraph.rewrite, hlen, hchk, hdid, TypeGraph.setPrintOnRewrite,
          removeIndirectionIntersections, BuilderModel.finish, mkOpenTypeGraph,
          apply_ite TypeGraph.serial]
      · simp [TypeGraph.rewrite, hchk, hdid, TypeGraph.setPrintOnRewrite,
          removeIndirectionIntersections, BuilderModel.finish, mkOpenTypeGraph,
          apply_ite TypeGraph.serial]

/-- Witness for C7 (amended): a concrete forced-free rewrite with a
forwarding-free builder yields serial old + 1. -/
theorem claim_C7_amended_witness :
    (exGraph3.rewrite "w" getNoStringTypeMapping false [[exNode 0]] false plainBuilder
        false).map TypeGraph.serial = .ok (exGraph3.serial + 1) :=
  ((claim_C7_amended exGraph3 "w" getNoStringTypeMapping false [[exNode 0]]
      [(exNode 0, exNode 1)] false plainBuilder false (Or.inr (by simp))
      (Or.inr (by simp)) (by decide)).1 rfl).1

/-- C8: `freeze` aborts with the fatal invariant violation exactly when the
graph is already frozen (and succeeds on an open graph whose node and
top-level references all validate against it), while `topLevels` and
`allTypesUnordered` abort with their fatal invariant violations exactly when
the graph is not yet frozen. -/
theorem claim_C8_freeze_assertions {V : Type} (g : TypeGraph V)
    (tl : List (String × TypeRef)) (ts : List TypeNode)
    (attrs : List (Option (TypeAttributes V))) :
    (g.isFrozen = true →
      g.freeze tl ts attrs
        = .error (.assertionFailed "Tried to freeze TypeGraph a second time")) ∧
    (g.isFrozen = false → (∀ t ∈ ts, t.ref.graphSerial = g.serial) →
      (∀ p ∈ tl, p.2.graphSerial = g.serial) →
      ∃ g2, g.freeze tl ts attrs = .ok g2 ∧ g2.isFrozen = true) ∧
    (g.isFrozen = false →
      g.topLevelsGet
          = .error (.assertionFailed "Cannot get top-levels from a non-frozen graph") ∧
      g.allTypesUnordered
          = .error (.assertionFailed "Tried to get all graph types before it was frozen")) ∧
    (g.isFrozen = true → ∀ ts2, g.types = some ts2 →
      g.topLevelsGet = .ok g.topLevels ∧ g.allTypesUnordered = .ok (jsSet ts2)) := by
  refine ⟨?_, ?_, ?_, ?_⟩
  · intro hf
    simp [TypeGraph.freeze, hf]
  · intro hf hts htl
    have hmm := mapMapDeref_ok
      (V := V)
      ({ g with
          attributeStore := some ⟨g.serial, [], attrs⟩
          types := some ts
          typeBuilder := none }) tl htl
    refine ⟨{ g with
        attributeStore := some ⟨g.serial, [], attrs⟩
        types := some ts
        typeBuilder := none
        topLevels := tl.map (fun p => (p.1, p.2.index)) }, ?_, rfl⟩
    simp [TypeGraph.freeze, hf, hts, hmm]
    exact hts
  · intro hf
    constructor
    · simp [TypeGraph.topLevelsGet, hf]
    · simp [TypeGraph.allTypesUnordered, hf]
  · intro hf ts2 hts2
    constructor
    · simp [TypeGraph.topLevelsGet, hf]
    · simp [TypeGraph.allTypesUnordered, hf, hts2]

/-- Witness for C8 applied both to a concrete frozen graph and to a concrete
open graph with valid references. -/
theorem claim_C8_witness :
    exGraph3.freeze [] [] []
        = .error (.assertionFailed "Tried to freeze TypeGraph a second time") ∧
    (∃ g2, exOpen.freeze [("R", ⟨0, 0⟩)] [exNode 0] [] = .ok g2 ∧ g2.isFrozen = true) ∧
    exOpen.topLevelsGet
        = .error (.assertionFailed "Cannot get top-levels from a non-frozen graph") ∧
    exOpen.allTypesUnordered
        = .error (.assertionFailed "Tried to get all graph types before it was frozen") ∧
    exGraph3.topLevelsGet = .ok exGraph3.topLevels ∧
    exGraph3.allTypesUnordered = .ok (jsSet [exNode 0, exNode 1, exNode 2]) := by
  refine ⟨?_, ?_, ?_, ?_, ?_, ?_⟩
  · exact (claim_C8_freeze_assertions exGraph3 [] [] []).1 rfl
  · exact (claim_C8_freeze_assertions exOpen [("R", ⟨0, 0⟩)] [exNode 0] []).2.1 rfl
      (by decide) (by decide)
  · exact ((claim_C8_freeze_assertions exOpen [] [] []).2.2.1 rfl).1
  · exact ((claim_C8_freeze_assertions exOpen [] [] []).2.2.1 rfl).2
  · exact ((claim_C8_freeze_assertions exGraph3 [] [] []).2.2.2 rfl
      [exNode 0, exNode 1, exNode 2] rfl).1
  · exact ((claim_C8_freeze_assertions exGraph3 [] [] []).2.2.2 rfl
      [exNode 0, exNode 1, exNode 2] rfl).2

/-- C10: on a frozen graph, `allTypesUnordered` is exactly the set of nodes of
the stored node array — deduplicated but otherwise independent of
reachability: membership is list membership in the stored array. -/
theorem claim_C10_allTypesUnordered {V : Type} (g : TypeGraph V) (ts : List TypeNode)
    (hf : g.isFrozen = true) (hts : g.types = some ts) :
    g.allTypesUnordered = .ok (jsSet ts) ∧ (jsSet ts).Nodup ∧
      ∀ t, t ∈ jsSet ts ↔ t ∈ ts := by
  refine ⟨?_, nodup_jsSet ts, fun t => mem_jsSet ts t⟩
  simp [TypeGraph.allTypesUnordered, hf, hts]

/-- Witness for C10 at a concrete graph whose node 1 is unreachable from the
only root, yet is a member of the result. -/
theorem claim_C10_witness :
    exUnreach.allTypesUnordered
      = .ok (jsSet [⟨⟨0, 0⟩, [], true⟩, ⟨⟨0, 1⟩, [], true⟩]) ∧
    (⟨⟨0, 1⟩, [], true⟩ : TypeNode) ∈ jsSet [⟨⟨0, 0⟩, [], true⟩, ⟨⟨0, 1⟩, [], true⟩] := by
  have h := claim_C10_allTypesUnordered exUnreach
    [⟨⟨0, 0⟩, [], true⟩, ⟨⟨0, 1⟩, [], true⟩] (by decide) rfl
  exact ⟨h.1, (h.2.2 _).mpr (by decide)⟩

/-- C3: the code's fixed-point loop invokes `this.rewrite` — always rewriting
the graph the method was called on, never the loop variable — so with a
deterministic shrinking pass it stops after returning the once-rewritten
graph (2 nodes here), even though one more forced pass still shrinks that
graph (to 1 node), while the spec's iterate-the-previous-result loop reaches
the stable graph (0 nodes).  The returned node count is therefore not the
minimal stable one. -/
theorem claim_C3_code_behavior :
    exGraph3.rewriteFixedPoint false false dropBuilder 5 = .ok (some exGraph3Dropped) ∧
    (exGraph3Dropped.types.getD []).length = 2 ∧
    (exGraph3Dropped.rewrite "fixed-point" getNoStringTypeMapping false [] false
        (dropBuilder exGraph3Dropped) true).map (fun gr => (gr.types.getD []).length)
      = .ok 1 ∧
    (rewriteFixedPointSpecGo false false dropBuilder 5 exGraph3).map
        (Option.map (fun gr => (gr.types.getD []).length)) = .ok (some 0) := by
  exact ⟨by decide, by decide, by decide, by decide⟩

/-! Depth-first traversal lemmas for `filterTypesGo`. -/

theorem filterTypesGo_nil (ts : List TypeNode) (pred : Option (TypeNode → Bool))
    (seen : Finset Nat) (acc : List Nat) :
    filterTypesGo ts pred [] seen acc = (seen, acc) := by
  simp [filterTypesGo]

theorem filterTypesGo_cons_mem (ts : List TypeNode) (pred : Option (TypeNode → Bool))
    (i : Nat) (stack : List Nat) (seen : Finset Nat) (acc : List Nat) (h : i ∈ seen) :
    filterTypesGo ts pred (i :: stack) seen acc = filterTypesGo ts pred stack seen acc := by
  simp [filterTypesGo, h]

theorem filterTypesGo_cons_none (ts : List TypeNode) (pred : Option (TypeNode → Bool))
    (i : Nat) (stack : List Nat) (seen : Finset Nat) (acc : List Nat) (h : i ∉ seen)
    (hm : ts.get? i = none) :
    filterTypesGo ts pred (i :: stack) seen acc
      = filterTypesGo ts pred stack (insert i seen) acc := by
  simp only [filterTypesGo]
  rw [if_neg h]
  split
  · rfl
  · rename_i t2 heq
    rw [hm] at heq
    cases heq

theorem filterTypesGo_cons_some (ts : List TypeNode) (pred : Option (TypeNode → Bool))
    (i : Nat) (stack : List Nat) (seen : Finset Nat) (acc : List Nat) (h : i ∉ seen)
    (t : TypeNode) (hm : ts.get? i = some t) :
    filterTypesGo ts pred (i :: stack) seen acc
      = filterTypesGo ts pred (t.children ++ stack) (insert i seen)
          (if requiredOf pred t then acc ++ [i] else acc) := by
  simp only [filterTypesGo]
  rw [if_neg h]
  split
  · rename_i heq
    rw [hm] at heq
    cases heq
  · rename_i t2 heq
    rw [hm] at heq
    cases heq
    rfl

theorem childIndices_get?_some (ts : List TypeNode) (i : Nat) (t : TypeNode)
    (hm : ts.get? i = some t) : childIndices ts i = t.children := by
  unfold childIndices
  rw [hm]
  rfl

theorem childIndices_get?_none (ts : List TypeNode) (i : Nat)
    (hm : ts.get? i = none) : childIndices ts i = [] := by
  unfold childIndices
  rw [hm]
  rfl

theorem filterTypesGo_seen_mono (ts : List TypeNode) (pred : Option (TypeNode → Bool))
    (stack : List Nat) (seen : Finset Nat) (acc : List Nat) :
    seen ⊆ (filterTypesGo ts pred stack seen acc).1 := by
  induction stack, seen, acc using filterTypesGo.induct ts pred with
  | case1 seen acc => simp [filterTypesGo_nil]
  | case2 i stack seen acc h ih =>
      rw [filterTypesGo_cons_mem ts pred i stack seen acc h]
      exact ih
  | case3 i stack seen acc h hm ih =>
      rw [filterTypesGo_cons_none ts pred i stack seen acc h hm]
      exact (Finset.subset_insert i seen).trans ih
  | case4 i stack seen acc h t hm req =>
      rename_i ih
      rw [filterTypesGo_cons_some ts pred i stack seen acc h t hm]
      exact (Finset.subset_insert i seen).trans ih

theorem filterTypesGo_stack_absorbed (ts : List TypeNode) (pred : Option (TypeNode → Bool))
    (stack : List Nat) (seen : Finset Nat) (acc : List Nat) :
    ∀ x ∈ stack, x ∈ (filterTypesGo ts pred stack seen acc).1 := by
  induction stack, seen, acc using filterTypesGo.induct ts pred with
  | case1 seen acc => simp
  | case2 i stack seen acc h ih =>
      rw [filterTypesGo_cons_mem ts pred i stack seen acc h]
      intro x hx
      rcases List.mem_cons.mp hx with hx | hx
      · exact filterTypesGo_seen_mono ts pred stack seen acc (hx ▸ h)
      · exact ih x hx
  | case3 i stack seen acc h hm ih =>
      rw [filterTypesGo_cons_none ts pred i stack seen acc h hm]
      intro x hx
      rcases List.mem_cons.mp hx with hx | hx
      · exact filterTypesGo_seen_mono ts pred stack (insert i seen) acc
          (hx ▸ Finset.mem_insert_self i seen)
      · exact ih x hx
  | case4 i stack seen acc h t hm req =>
      rename_i ih
      rw [filterTypesGo_cons_some ts pred i stack seen acc h t hm]
      intro x hx
      rcases List.mem_cons.mp hx with hx | hx
      · exact filterTypesGo_seen_mono ts pred _ (insert i seen) _
          (hx ▸ Finset.mem_insert_self i seen)
      · exact ih x (List.mem_append_right _ hx)

theorem filterTypesGo_seen_sound (ts : List TypeNode) (pred : Option (TypeNode → Bool))
    (stack : List Nat) (seen : Finset Nat) (acc : List Nat) :
    ∀ x ∈ (filterTypesGo ts pred stack seen acc).1,
      x ∈ seen ∨ ∃ s ∈ stack, ReachIn ts s x := by
  induction stack, seen, acc using filterTypesGo.induct ts pred with
  | case1 seen acc =>
      intro x hx
      rw [filterTypesGo_nil] at hx
      exact Or.inl hx
  | case2 i stack seen acc h ih =>
      rw [filterTypesGo_cons_mem ts pred i stack seen acc h]
      intro x hx
      rcases ih x hx with hx | ⟨s, hs, hr⟩
      · exact Or.inl hx
      · exact Or.inr ⟨s, List.mem_cons_of_mem _ hs, hr⟩
  | case3 i stack seen acc h hm ih =>
      rw [filterTypesGo_cons_none ts pred i stack seen acc h hm]
      intro x hx
      rcases ih x hx with hx | ⟨s, hs, hr⟩
      · rcases Finset.mem_insert.mp hx with hx | hx
        · exact Or.inr ⟨i, List.mem_cons_self i stack, hx ▸ Relation.ReflTransGen.refl⟩
        · exact Or.inl hx
      · exact Or.inr ⟨s, List.mem_cons_of_mem _ hs, hr⟩
  | case4 i stack seen acc h t hm req =>
      rename_i ih
      rw [filterTypesGo_cons_some ts pred i stack seen acc h t hm]
      intro x hx
      rcases ih x hx with hx | ⟨s, hs, hr⟩
      · rcases Finset.mem_insert.mp hx with hx | hx
        · exact Or.inr ⟨i, List.mem_cons_self i stack, hx ▸ Relation.ReflTransGen.refl⟩
        · exact Or.inl hx
      · rcases List.mem_append.mp hs with hs | hs
        · refine Or.inr ⟨i, List.mem_cons_self i stack, Relation.ReflTransGen.head ?_ hr⟩
          show s ∈ childIndices ts i
          rw [childIndices_get?_some ts i t hm]
          exact hs
        · exact Or.inr ⟨s, List.mem_cons_of_mem _ hs, hr⟩

theorem filterTypesGo_closed (ts : List TypeNode) (pred : Option (TypeNode → Bool))
    (stack : List Nat) (seen : Finset Nat) (acc : List Nat) :
    (∀ u ∈ seen, ∀ c ∈ childIndices ts u, c ∈ seen ∨ c ∈ stack) →
    ∀ u ∈ (filterTypesGo ts pred stack seen acc).1, ∀ c ∈ childIndices ts u,
      c ∈ (filterTypesGo ts pred stack seen acc).1 := by
  induction stack, seen, acc using filterTypesGo.induct ts pred with
  | case1 seen acc =>
      intro hinv
      rw [filterTypesGo_nil]
      intro u hu c hc
      rcases hinv u hu c hc with hcs | hcs
      · exact hcs
      · exact absurd hcs (List.not_mem_nil c)
  | case2 i stack seen acc h ih =>
      intro hinv
      rw [filterTypesGo_cons_mem ts pred i stack seen acc h]
      refine ih ?_
      intro u hu c hc
      rcases hinv u hu c hc with hcs | hcs
      · exact Or.inl hcs
      · rcases List.mem_cons.mp hcs with hcs | hcs
        · exact Or.inl (hcs ▸ h)
        · exact Or.inr hcs
  | case3 i stack seen acc h hm ih =>
      intro hinv
      rw [filterTypesGo_cons_none ts pred i stack seen acc h hm]
      refine ih ?_
      intro u hu c hc
      rcases Finset.mem_insert.mp hu with hu | hu
      · subst hu
        rw [childIndices_get?_none ts u hm] at hc
        exact absurd hc (List.not_mem_nil c)
      · rcases hinv u hu c hc with hcs | hcs
        · exact Or.inl (Finset.mem_insert_of_mem hcs)
        · rcases List.mem_cons.mp hcs with hcs | hcs
          · exact Or.inl (hcs ▸ Finset.mem_insert_self i seen)
          · exact Or.inr hcs
  | case4 i stack seen acc h t hm req =>
      rename_i ih
      intro hinv
      rw [filterTypesGo_cons_some ts pred i stack seen acc h t hm]
      refine ih ?_
      intro u hu c hc
      rcases Finset.mem_insert.mp hu with hu | hu
      · subst hu
        rw [childIndices_get?_some ts u t hm] at hc
        exact Or.inr (List.mem_append_left _ hc)
      · rcases hinv u hu c hc with hcs | hcs
        · exact Or.inl (Finset.mem_insert_of_mem hcs)
        · rcases List.mem_cons.mp hcs with hcs | hcs
          · exact Or.inl (hcs ▸ Finset.mem_insert_self i seen)
          · exact Or.inr (List.mem_append_right _ hcs)

theorem filterTypesGo_acc (ts : List TypeNode) (pred : Option (TypeNode → Bool))
    (stack : List Nat) (seen : Finset Nat) (acc : List Nat) :
    acc.Nodup → (∀ a, a ∈ acc ↔ a ∈ seen ∧ PredAt ts pred a) →
    (filterTypesGo ts pred stack seen acc).2.Nodup ∧
    ∀ a, a ∈ (filterTypesGo ts pred stack seen acc).2 ↔
      a ∈ (filterTypesGo ts pred stack seen acc).1 ∧ PredAt ts pred a := by
  induction stack, seen, acc using filterTypesGo.induct ts pred with
  | case1 seen acc =>
      intro hnd hiff
      rw [filterTypesGo_nil]
      exact ⟨hnd, hiff⟩
  | case2 i stack seen acc h ih =>
      intro hnd hiff
      rw [filterTypesGo_cons_mem ts pred i stack seen acc h]
      exact ih hnd hiff
  | case3 i stack seen acc h hm ih =>
      intro hnd hiff
      rw [filterTypesGo_cons_none ts pred i stack seen acc h hm]
      refine ih hnd ?_
      intro a
      rw [hiff a]
      constructor
      · rintro ⟨has, hp⟩
        exact ⟨Finset.mem_insert_of_mem has, hp⟩
      · rintro ⟨has, hp⟩
        rcases Finset.mem_insert.mp has with ha | ha
        · subst ha
          rcases hp with ⟨t, hget, _⟩
          rw [hm] at hget
          cases hget
        · exact ⟨ha, hp⟩
  | case4 i stack seen acc h t hm req =>
      rename_i ih
      intro hnd hiff
      rw [filterTypesGo_cons_some ts pred i stack seen acc h t hm]
      refine ih ?_ ?_
      · show (if requiredOf pred t = true then acc ++ [i] else acc).Nodup
        by_cases hreq : requiredOf pred t = true
        · rw [if_pos hreq]
          have hinacc : i ∉ acc := fun hi => h ((hiff i).mp hi).1
          simpa [List.nodup_append] using ⟨hnd, hinacc⟩
        · rw [if_neg hreq]
          exact hnd
      · show ∀ a, a ∈ (if requiredOf pred t = true then acc ++ [i] else acc) ↔
          a ∈ insert i seen ∧ PredAt ts pred a
        intro a
        by_cases hreq : requiredOf pred t = true
        · rw [if_pos hreq]
          constructor
          · intro ha
            rcases List.mem_append.mp ha with ha | ha
            · rcases (hiff a).mp ha with ⟨has, hp⟩
              exact ⟨Finset.mem_insert_of_mem has, hp⟩
            · have ha : a = i := by simpa using ha
              subst ha
              exact ⟨Finset.mem_insert_self a seen, ⟨t, hm, hreq⟩⟩
          · rintro ⟨has, hp⟩
            rcases Finset.mem_insert.mp has with ha | ha
            · subst ha
              simp
            · exact List.mem_append_left _ ((hiff a).mpr ⟨ha, hp⟩)
        · rw [if_neg hreq]
          rw [hiff a]
          constructor
          · rintro ⟨has, hp⟩
            exact ⟨Finset.mem_insert_of_mem has, hp⟩
          · rintro ⟨has, hp⟩
            rcases Finset.mem_insert.mp has with ha | ha
            · subst ha
              rcases hp with ⟨t2, hget, hreq2⟩
              rw [hm] at hget
              cases hget
              exact absurd hreq2 hreq
            · exact ⟨ha, hp⟩

theorem filterTypesGo_seen_char (ts : List TypeNode) (pred : Option (TypeNode → Bool))
    (roots : List Nat) :
    ∀ x, x ∈ (filterTypesGo ts pred roots ∅ []).1 ↔ ∃ r ∈ roots, ReachIn ts r x := by
  intro x
  constructor
  · intro hx
    rcases filterTypesGo_seen_sound ts pred roots ∅ [] x hx with hx | hx
    · exact absurd hx (Finset.not_mem_empty x)
    · exact hx
  · rintro ⟨r, hr, hreach⟩
    have hclosed := filterTypesGo_closed ts pred roots ∅ []
      (fun u hu => absurd hu (Finset.not_mem_empty u))
    induction hreach with
    | refl => exact filterTypesGo_stack_absorbed ts pred roots ∅ [] r hr
    | tail _ hstep ih => exact hclosed _ ih _ hstep

theorem filterTypes_correct {V : Type} (g : TypeGraph V) (ts : List TypeNode)
    (pred : Option (TypeNode → Bool)) (hf : g.isFrozen = true) (hts : g.types = some ts) :
    ∃ l, g.filterTypes pred = .ok l ∧ l.Nodup ∧
      ∀ i, i ∈ l ↔ (∃ r ∈ g.topLevels.map (fun p => p.2), ReachIn ts r i) ∧
        PredAt ts pred i := by
  have hacc := filterTypesGo_acc ts pred (g.topLevels.map (fun p => p.2)) ∅ []
    List.nodup_nil (by simp)
  refine ⟨(filterTypesGo ts pred (g.topLevels.map (fun p => p.2)) ∅ []).2, ?_, hacc.1, ?_⟩
  · simp [TypeGraph.filterTypes, TypeGraph.topLevelsGet, hf, hts]
  · intro i
    rw [hacc.2 i, filterTypesGo_seen_char ts pred (g.topLevels.map (fun p => p.2)) i]

/-- C4: on a frozen graph — cyclic or not — `allNamedTypes` is total and
returns the deduplicated set of exactly those nodes that are reachable from
some top-level root and satisfy the is-named predicate, each exactly once
(the traversal is the seen-set-guarded depth-first walk `filterTypesGo`,
defined by well-founded recursion, hence terminating on every graph). -/
theorem claim_C4_allNamedTypes {V : Type} (g : TypeGraph V) (ts : List TypeNode)
    (hf : g.isFrozen = true) (hts : g.types = some ts) :
    ∃ l, g.allNamedTypes = .ok l ∧ l.Nodup ∧
      ∀ i, i ∈ l ↔ (∃ r ∈ g.topLevels.map (fun p => p.2), ReachIn ts r i) ∧
        ∃ t, ts.get? i = some t ∧ t.named = true := by
  rcases filterTypes_correct g ts (some TypeNode.named) hf hts with ⟨l, hok, hnd, hchar⟩
  refine ⟨l, hok, hnd, ?_⟩
  intro i
  rw [hchar i]
  rfl

/-- Witness for C4 on a concrete frozen graph with the child cycle
0 -> 1 -> 0: the traversal terminates and characterizes its result. -/
theorem claim_C4_witness :
    ∃ l, exCyclic.allNamedTypes = .ok l ∧ l.Nodup ∧
      ∀ i, i ∈ l ↔ (∃ r ∈ exCyclic.topLevels.map (fun p => p.2),
          ReachIn [⟨⟨0, 0⟩, [1], true⟩, ⟨⟨0, 1⟩, [0, 2], true⟩, ⟨⟨0, 2⟩, [], false⟩] r i) ∧
        ∃ t, [⟨⟨0, 0⟩, [1], true⟩, ⟨⟨0, 1⟩, [0, 2], true⟩,
          (⟨⟨0, 2⟩, [], false⟩ : TypeNode)].get? i = some t ∧ t.named = true :=
  claim_C4_allNamedTypes exCyclic
    [⟨⟨0, 0⟩, [1], true⟩, ⟨⟨0, 1⟩, [0, 2], true⟩, ⟨⟨0, 2⟩, [], false⟩] (by decide) rfl
